import Mathlib

/-- Lowercasing as JavaScript's `toLowerCase` behaves on the ASCII text this
repository matches against: each character is lowercased independently. -/
def jsToLower (s : String) : String := String.mk (s.toList.map Char.toLower)

/-- Boolean test that `p` is a prefix of `l`. -/
def startsWithB [BEq α] : List α → List α → Bool
  | [], _ => true
  | _ :: _, [] => false
  | a :: as, b :: bs => a == b && startsWithB as bs

/-- Boolean test that `p` occurs as a contiguous sublist of `l`; this is the
semantics of JavaScript's `String.prototype.includes`. -/
def hasSublistB [BEq α] : List α → List α → Bool
  | p, [] => p.isEmpty
  | p, a :: as => startsWithB p (a :: as) || hasSublistB p as

/-- `jsIncludes s pat` models `s.includes(pat)` in JavaScript. -/
def jsIncludes (s pat : String) : Bool := hasSublistB pat.toList s.toList

/-- `Math.round` in JavaScript rounds half toward positive infinity. -/
def jsRound (q : ℚ) : ℤ := ⌊q + 1/2⌋

/-- `Math.round(q * 100) / 100`, the two-decimal rounding used throughout the
recommendation engine. -/
def jsRound2 (q : ℚ) : ℚ := (jsRound (q * 100) : ℚ) / 100

/-! ## Admission gate (`RateLimiter`, src/unnamed/part_004)

The JavaScript class keeps `Map<clientIp, { count, resetTime }>`; the map is
modelled as a function from identities to optional entries.  Timestamps
(`Date.now()`) are modelled as natural numbers of milliseconds. -/

/-- One entry of the rate limiter's client map: `{ count, resetTime }`. -/
structure ClientData where
  count : Nat
  resetTime : Nat
deriving DecidableEq, Repr

/-- The `RateLimiter` state: configuration plus the per-identity map. -/
structure RateLimiter where
  maxRequests : Nat
  windowMs : Nat
  clients : String → Option ClientData

/-- `new RateLimiter(maxRequests, windowMs)` with an empty client map. -/
def mkRateLimiter (maxRequests : Nat := 10) (windowMs : Nat := 60000) : RateLimiter :=
  { maxRequests := maxRequests, windowMs := windowMs, clients := fun _ => none }

/-- `Map.set` on the client map. -/
def setClient (rl : RateLimiter) (ip : String) (d : ClientData) : RateLimiter :=
  { rl with clients := fun ip' => if ip' = ip then some d else rl.clients ip' }

/-- `RateLimiter.isAllowed(clientIp)` evaluated at time `now`: allowed when the
identity has no entry, its window expired (`now >= resetTime`), or its count is
below the configured maximum. -/
def isAllowed (rl : RateLimiter) (ip : String) (now : Nat) : Bool :=
  match rl.clients ip with
  | none => true
  | some d => if d.resetTime ≤ now then true else decide (d.count < rl.maxRequests)

/-- `RateLimiter.recordRequest(clientIp)` evaluated at time `now`: open a fresh
window with count 1 when there is no live entry, otherwise increment the count
keeping the window's `resetTime`. -/
def recordRequest (rl : RateLimiter) (ip : String) (now : Nat) : RateLimiter :=
  match rl.clients ip with
  | none => setClient rl ip ⟨1, now + rl.windowMs⟩
  | some d =>
    if d.resetTime ≤ now then setClient rl ip ⟨1, now + rl.windowMs⟩
    else setClient rl ip ⟨d.count + 1, d.resetTime⟩

/-- `RateLimiter.getResetTime(clientIp)`: milliseconds until the window resets,
or 0 when there is no entry or it already expired. -/
def getResetTime (rl : RateLimiter) (ip : String) (now : Nat) : Nat :=
  match rl.clients ip with
  | none => 0
  | some d => if now < d.resetTime then d.resetTime - now else 0

/-- `RateLimiter.cleanup()`: drop every entry whose window has expired. -/
def cleanupSweep (rl : RateLimiter) (now : Nat) : RateLimiter :=
  { rl with
    clients := fun ip =>
      match rl.clients ip with
      | some d => if d.resetTime ≤ now then none else some d
      | none => none }

/-- One pass of the Express middleware for a single request: check `isAllowed`;
on success record the request and admit (`true`), otherwise answer 429 and
leave the map untouched (`false`). -/
def middlewareStep (rl : RateLimiter) (ip : String) (now : Nat) : RateLimiter × Bool :=
  if isAllowed rl ip now then (recordRequest rl ip now, true) else (rl, false)

/-- External stimuli of the gate: an inbound request from an identity at a
time, or a run of the periodic cleanup timer. -/
inductive GateEvent where
  | request (ip : String) (now : Nat)
  | sweep (now : Nat)

/-- Apply one event to the gate state. -/
def gateStep (rl : RateLimiter) (e : GateEvent) : RateLimiter :=
  match e with
  | .request ip now => (middlewareStep rl ip now).1
  | .sweep now => cleanupSweep rl now

/-- Process a whole sequence of events through the gate. -/
def processGateEvents (rl : RateLimiter) (events : List GateEvent) : RateLimiter :=
  events.foldl gateStep rl

/-- The claimed invariant: every stored counter is bounded by the configured
maximum. -/
def countBounded (rl : RateLimiter) : Prop :=
  ∀ ip d, rl.clients ip = some d → d.count ≤ rl.maxRequests

/-- A demonstration run: twelve requests from one identity inside one window. -/
def gateDemoEvents : List GateEvent :=
  (List.range 12).map (fun i => .request "198.51.100.7" i)

/-! ## Subscription store (src/server/SubscriptionManager.js with schema.js)

Rows of the `plans` and `subscriptions` tables.  Prices are JavaScript numbers
used only through exact decimal arithmetic here, modelled as rationals;
date-times are modelled as milliseconds since the epoch, with the calendar
arithmetic of `setDate(getDate() + 30)` abstracted to a fixed 30-day offset.
The errors thrown by the manager are tagged with the spec's taxonomy
(validation / not-found / store), keeping the thrown message text. -/

/-- A row of the `plans` table (the columns this core reads). -/
structure Plan where
  id : String
  name : String
  price : ℚ
  billing_cycle : String
deriving DecidableEq, Repr

/-- A row of the `subscriptions` table. -/
structure Subscription where
  id : String
  customer_id : String
  plan_id : String
  status : String
  start_date : Nat
  end_date : Option Nat
  next_billing_date : Option Nat
deriving DecidableEq, Repr

/-- Typed rendering of the errors the manager can surface. -/
inductive SMError where
  | validation (msg : String)
  | notFound (msg : String)
  | storeFailure (msg : String)
deriving DecidableEq, Repr

def msPerDay : Nat := 86400000

/-- The `CHECK(status IN ('active','cancelled','paused'))` column constraint. -/
def validStatuses : List String := ["active", "cancelled", "paused"]

/-- `SubscriptionManager.validatePlan`: succeed exactly when some plan row has
the given id, otherwise throw. -/
def validatePlan (plans : List Plan) (planId : String) : Except SMError Unit :=
  if plans.any (fun p => p.id == planId) then .ok ()
  else .error (.validation ("Plan with ID " ++ planId ++ " does not exist"))

/-- `SubscriptionManager.createSubscription`: validate the plan, then insert a
fresh `active` row (end date unset, next billing 30 days after the start) and
return it.  The pair carries the reply and the resulting subscriptions table;
on error the table is unchanged. -/
def createSubscription (plans : List Plan) (store : List Subscription)
    (customerId planId : String) (startDate : Nat) (newId : String) :
    Except SMError Subscription × List Subscription :=
  match validatePlan plans planId with
  | .error e => (.error e, store)
  | .ok _ =>
    let sub : Subscription :=
      { id := newId, customer_id := customerId, plan_id := planId,
        status := "active", start_date := startDate, end_date := none,
        next_billing_date := some (startDate + 30 * msPerDay) }
    (.ok sub, store ++ [sub])

/-- The update payload of `updateSubscription`: for each allowed column, absent
(`none`), or present with a value that may itself be SQL `NULL` (`some none`).
Keys outside the allowed list are filtered out by the code and are not
modelled. -/
structure SubUpdates where
  plan_id : Option (Option String) := none
  status : Option (Option String) := none
  end_date : Option (Option Nat) := none
  next_billing_date : Option (Option Nat) := none
deriving DecidableEq, Repr

/-- JavaScript truthiness of `updates.plan_id` (absent, `null` and `""` are
falsy). -/
def jsTruthyStr : Option (Option String) → Bool
  | some (some v) => !(v == "")
  | _ => false

/-- Whether the payload contains at least one allowed field (otherwise the
code throws `No valid fields to update`). -/
def hasAllowedField (u : SubUpdates) : Bool :=
  u.plan_id.isSome || u.status.isSome || u.end_date.isSome || u.next_billing_date.isSome

def updStr (cur : String) : Option (Option String) → String
  | some (some v) => v
  | _ => cur

def updOptNat (cur : Option Nat) : Option (Option Nat) → Option Nat
  | some v => v
  | none => cur

/-- The `UPDATE subscriptions SET ...` statement: apply the present fields,
with the schema's NOT NULL and CHECK constraints rejecting a `NULL` plan or
status and any status outside the allowed set. -/
def applyUpdates (s : Subscription) (u : SubUpdates) : Except SMError Subscription :=
  if u.plan_id == some none then
    .error (.storeFailure "NOT NULL constraint failed: subscriptions.plan_id")
  else if u.status == some none then
    .error (.storeFailure "NOT NULL constraint failed: subscriptions.status")
  else if (match u.status with
           | some (some v) => decide (v ∉ validStatuses)
           | _ => false) then
    .error (.storeFailure "CHECK constraint failed: subscriptions")
  else .ok
    { s with
      plan_id := updStr s.plan_id u.plan_id,
      status := updStr s.status u.status,
      end_date := updOptNat s.end_date u.end_date,
      next_billing_date := updOptNat s.next_billing_date u.next_billing_date }

/-- `SubscriptionManager.updateSubscription`: look the row up, validate a
truthy new plan id, reject an empty payload, then apply the update and return
the updated row.  On any error the table is unchanged. -/
def updateSubscription (plans : List Plan) (store : List Subscription)
    (subscriptionId : String) (u : SubUpdates) :
    Except SMError Subscription × List Subscription :=
  match store.find? (fun s => s.id == subscriptionId) with
  | none =>
    (.error (.notFound ("Subscription with ID " ++ subscriptionId ++ " not found")), store)
  | some existing =>
    match (if jsTruthyStr u.plan_id then validatePlan plans (updStr existing.plan_id u.plan_id)
           else .ok ()) with
    | .error e => (.error e, store)
    | .ok _ =>
      if hasAllowedField u then
        match applyUpdates existing u with
        | .error e => (.error e, store)
        | .ok newSub =>
          (.ok newSub, store.map (fun s => if s.id == subscriptionId then newSub else s))
      else (.error (.validation "No valid fields to update"), store)

/-- `SubscriptionManager.cancelSubscription`: look the row up (throwing
not-found when absent), then set `status = 'cancelled'` and `end_date = now`,
returning the updated row. -/
def cancelSubscription (store : List Subscription) (subscriptionId : String) (now : Nat) :
    Except SMError Subscription × List Subscription :=
  match store.find? (fun s => s.id == subscriptionId) with
  | none =>
    (.error (.notFound ("Subscription with ID " ++ subscriptionId ++ " not found")), store)
  | some sub =>
    let newSub := { sub with status := "cancelled", end_date := some now }
    (.ok newSub, store.map (fun s => if s.id == subscriptionId then newSub else s))

/-- The data-model invariant of C9: a cancelled subscription has its end date
set. -/
def cancelledHasEnd (store : List Subscription) : Bool :=
  store.all (fun s => !(s.status == "cancelled") || s.end_date.isSome)

/-- The gate configured with `new RateLimiter(0, 60000)`. -/
def gateZeroMax : RateLimiter := mkRateLimiter 0 60000

/-- A demonstration plan catalog (ids and prices as in the seed data). -/
def demoPlans : List Plan :=
  [{ id := "basic", name := "Basic Plan", price := 999/100, billing_cycle := "monthly" },
   { id := "pro", name := "Pro Plan", price := 2999/100, billing_cycle := "monthly" }]

/-- An active subscription whose end date is unset. -/
def demoActiveSub : Subscription :=
  { id := "sub-9", customer_id := "customer-2", plan_id := "basic",
    status := "active", start_date := 0, end_date := none,
    next_billing_date := some (30 * msPerDay) }

/-- An already-cancelled subscription. -/
def demoCancelledSub : Subscription :=
  { id := "sub-1", customer_id := "customer-1", plan_id := "pro",
    status := "cancelled", start_date := 0, end_date := some 100,
    next_billing_date := some (30 * msPerDay) }

/-- The update payload `{ status: 'cancelled' }` with no end date. -/
def cancelOnlyUpdate : SubUpdates := { status := some (some "cancelled") }

/-- The update payload `{ status: 'cancelled', end_date: 900 }`. -/
def fullCancelUpdate : SubUpdates :=
  { status := some (some "cancelled"), end_date := some (some 900) }

/-! ## Recommendation engine (src/server/RecommendationEngine.js)

`generateRecommendations` is embedded with its database reads and the model
backend supplied as arguments: the customer row, the active joined
subscription rows, the successful billing rows (newest first, at most 10) and
the plan catalog are the query results, and `llmRecs` is the parsed array the
`LLMService.generateRecommendations` call would return (the empty list when
its JSON parsing fails).  The boolean in the result records whether the model
backend was invoked. -/

/-- A row of the customers table (only existence matters to the engine). -/
structure Customer where
  id : String
deriving DecidableEq, Repr

/-- A joined `subscriptions × plans` row; only the columns the engine's
arithmetic reads are modelled. -/
structure SubRow where
  price : ℚ
  billing_cycle : String
deriving DecidableEq, Repr

/-- A billing-history row (passed to `calculateSavings` but never read by
it). -/
structure BillRow where
  amount : ℚ
deriving DecidableEq, Repr

/-- A candidate recommendation parsed from the model's JSON: every field may
be missing. -/
structure ModelRec where
  planId : Option String := none
  planName : Option String := none
  reasoning : String := ""
  potentialSavings : Option ℚ := none
  benefits : Option (List String) := none
deriving DecidableEq, Repr

/-- The cost-implication template of `formatRecommendation`, with the
interpolated dollar amount kept as data: `Save $X/month`, `Additional
$X/month`, `Similar cost`. -/
inductive CostPhrase where
  | save (amount : ℚ)
  | additional (amount : ℚ)
  | similar
deriving DecidableEq, Repr

/-- A recommendation as returned to the caller; `costImplication` is `none`
for the objects that never pass through `formatRecommendation`. -/
structure OutRec where
  planId : Option String
  planName : Option String
  reasoning : String
  potentialSavings : ℚ
  benefits : List String
  costImplication : Option CostPhrase
deriving DecidableEq, Repr

/-- `x || 0` on the model's optional number. -/
def jsOrZero : Option ℚ → ℚ
  | some v => v
  | none => 0

/-- The sign analysis of `formatRecommendation` on the raw (pre-default)
`potentialSavings`. -/
def costPhraseOf : Option ℚ → CostPhrase
  | some v =>
    if 0 < v then .save v else if v < 0 then .additional (-v) else .similar
  | none => .similar

/-- `RecommendationEngine.formatRecommendation`. -/
def formatRecommendation (m : ModelRec) : OutRec :=
  { planId := m.planId, planName := m.planName, reasoning := m.reasoning,
    potentialSavings := jsOrZero m.potentialSavings,
    benefits := m.benefits.getD [],
    costImplication := some (costPhraseOf m.potentialSavings) }

/-- The reduce inside `calculateSavings`: monthly prices count as-is, yearly
prices are divided by 12, any other cycle contributes nothing. -/
def monthlyCostOfSubs (subs : List SubRow) : ℚ :=
  subs.foldl (fun sum s =>
    if s.billing_cycle = "monthly" then sum + s.price
    else if s.billing_cycle = "yearly" then sum + s.price / 12
    else sum) 0

/-- The recommended plan's monthly cost in `calculateSavings`: the raw price
unless the cycle is yearly. -/
def planMonthlyCost (p : Plan) : ℚ :=
  if p.billing_cycle = "yearly" then p.price / 12 else p.price

/-- `RecommendationEngine.calculateSavings` (the billing history argument is
accepted and ignored, as in the source). -/
def calculateSavings (currentSubscriptions : List SubRow) (recommendedPlan : Plan)
    (_billingHistory : List BillRow) : ℚ :=
  jsRound2 (monthlyCostOfSubs currentSubscriptions - planMonthlyCost recommendedPlan)

/-- `subscriptions.reduce((sum, s) => sum + s.price, 0)`: raw prices, with no
monthly normalisation. -/
def rawCostOfSubs (subs : List SubRow) : ℚ :=
  subs.foldl (fun sum s => sum + s.price) 0

/-- The premium filter of `analyzeConsolidation`: the lowercased plan name
contains `enterprise` or `premium`. -/
def isPremiumNamed (p : Plan) : Bool :=
  jsIncludes (jsToLower p.name) "enterprise" || jsIncludes (jsToLower p.name) "premium"

/-- The template reasoning text of the consolidation recommendation. -/
def consolidationReasoning (n : Nat) (planName : String) : String :=
  "You have " ++ toString n ++ " active subscriptions. Consolidating to " ++ planName ++
    " could simplify billing and provide all features in one plan."

/-- The templated `Save $X per cycle` benefit line. -/
def saveBenefitLine (amount : ℚ) (cycle : String) : String :=
  "Save $" ++ toString amount ++ " per " ++ cycle

/-- `RecommendationEngine.analyzeConsolidation`: take the FIRST
premium/enterprise-named plan of the catalog, and emit a recommendation
exactly when the raw sum of the current subscriptions' prices strictly
exceeds its raw price. -/
def analyzeConsolidation (subscriptions : List SubRow) (allPlans : List Plan) :
    Option OutRec :=
  match (allPlans.filter isPremiumNamed).head? with
  | some bestPlan =>
    if 0 < rawCostOfSubs subscriptions - bestPlan.price then
      some { planId := some bestPlan.id, planName := some bestPlan.name,
             reasoning := consolidationReasoning subscriptions.length bestPlan.name,
             potentialSavings := jsRound2 (rawCostOfSubs subscriptions - bestPlan.price),
             benefits := ["Single billing cycle", "All features included",
                          "Simplified management",
                          saveBenefitLine (jsRound2 (rawCostOfSubs subscriptions - bestPlan.price))
                            bestPlan.billing_cycle],
             costImplication := none }
    else none
  | none => none

/-- `allPlans.find(p => p.id === rec.planId || p.name === rec.planName)`,
with absent fields never matching. -/
def planMatchesRec (p : Plan) (m : ModelRec) : Bool :=
  (match m.planId with | some v => p.id == v | none => false) ||
  (match m.planName with | some v => p.name == v | none => false)

/-- The per-candidate step of `generateRecommendations`: when the recommended
plan is found in the catalog, overwrite the model's `potentialSavings` with
`calculateSavings`; otherwise leave the candidate untouched. -/
def applyComputedSavings (subscriptions : List SubRow) (billingHistory : List BillRow)
    (allPlans : List Plan) (m : ModelRec) : ModelRec :=
  match allPlans.find? (fun p => planMatchesRec p m) with
  | some plan =>
    { m with potentialSavings := some (calculateSavings subscriptions plan billingHistory) }
  | none => m

/-- The canned starter recommendation of the zero-subscription branch — note
it is returned as a plain object, without `formatRecommendation`. -/
def starterRec : OutRec :=
  { planId := some "basic", planName := some "Basic Plan",
    reasoning := "Start with our Basic plan to get access to essential features",
    potentialSavings := 0,
    benefits := ["Essential features", "Affordable pricing", "Easy to upgrade"],
    costImplication := none }

/-- `RecommendationEngine.generateRecommendations`.  The boolean of the result
records whether the model backend was called. -/
def generateRecommendations (customerId : String) (customerRow : Option Customer)
    (activeSubs : List SubRow) (billingHistory : List BillRow) (allPlans : List Plan)
    (llmRecs : List ModelRec) : Except SMError (List OutRec × Bool) :=
  match customerRow with
  | none => .error (.notFound ("Customer with ID " ++ customerId ++ " not found"))
  | some _ =>
    if activeSubs.isEmpty then .ok ([starterRec], false)
    else
      if 2 ≤ activeSubs.length then
        match analyzeConsolidation activeSubs allPlans with
        | some c =>
          .ok ((llmRecs.map (fun m =>
            formatRecommendation (applyComputedSavings activeSubs billingHistory allPlans m)))
            ++ [c], true)
        | none =>
          .ok (llmRecs.map (fun m =>
            formatRecommendation (applyComputedSavings activeSubs billingHistory allPlans m)), true)
      else
        .ok (llmRecs.map (fun m =>
          formatRecommendation (applyComputedSavings activeSubs billingHistory allPlans m)), true)

/-- Modelled from the spec's wording of the savings formula:
`monthlyNormalized(plan) = price` if billingCycle = monthly else `price / 12`. -/
def monthlyNormalized (price : ℚ) (billingCycle : String) : ℚ :=
  if billingCycle = "monthly" then price else price / 12

/-- The spec-side current monthly total: the sum of `monthlyNormalized` over
the active subscriptions. -/
def specMonthlyTotal (subs : List SubRow) : ℚ :=
  (subs.map (fun s => monthlyNormalized s.price s.billing_cycle)).sum

/-- A single monthly subscription row at $9.99. -/
def oneSubRow : SubRow := { price := 999/100, billing_cycle := "monthly" }

/-- Two monthly subscriptions at $9.99 and $29.99. -/
def subsTwo : List SubRow :=
  [{ price := 999/100, billing_cycle := "monthly" },
   { price := 2999/100, billing_cycle := "monthly" }]

/-- A model candidate naming a plan that exists in no catalog. -/
def ghostRec : ModelRec :=
  { planId := some "ghost", planName := some "Ghost Plan",
    reasoning := "Recommended by the model", potentialSavings := some (12345/100),
    benefits := some ["Imaginary features"] }

/-- A model candidate naming the `pro` plan of the demo catalog. -/
def proRec : ModelRec :=
  { planId := some "pro", planName := some "Pro Plan",
    reasoning := "Upgrade for more features", potentialSavings := some 42,
    benefits := some ["More features"] }

/-- An expensive premium-named plan (listed first in catalogs below). -/
def premiumMax : Plan :=
  { id := "premium-max", name := "Premium Max", price := 100, billing_cycle := "monthly" }

/-- A cheap premium-named plan (listed second). -/
def premiumLite : Plan :=
  { id := "premium-lite", name := "Premium Lite", price := 5, billing_cycle := "monthly" }

/-- A catalog whose first premium plan is expensive and whose second is
cheap. -/
def premiumPlansTwo : List Plan := [premiumMax, premiumLite]

/-- An enterprise plan at $99.99/month. -/
def enterprise9999 : Plan :=
  { id := "enterprise", name := "Enterprise Plan", price := 9999/100,
    billing_cycle := "monthly" }

/-- An enterprise plan at $29.99/month. -/
def enterprise2999 : Plan :=
  { id := "enterprise", name := "Enterprise Plan", price := 2999/100,
    billing_cycle := "monthly" }

/-! ## Intent resolution (src/server/server.js POST /api/chat keyword chain;
LLMService.extractIntent variants in src/unnamed/part_002 and part_003)

`JSON.parse` of a model reply is an external runtime facility; it is
abstracted as its result: `none` when parsing throws, `some intent` when it
yields a payload (which the code returns without any schema validation). -/

/-- The structured intent: the action name, the optional parameters the
keyword branches can fill, and the advisory confidence. -/
structure Intent where
  action : String
  planId : Option String := none
  subscriptionId : Option String := none
  confidence : ℚ
deriving DecidableEq, Repr

/-- Trigger of the view_subscriptions branch. -/
def viewSubsTrigger (lower : String) : Bool :=
  (jsIncludes lower "subscription" || jsIncludes lower "plan") &&
  (jsIncludes lower "show" || jsIncludes lower "view" || jsIncludes lower "list" ||
   jsIncludes lower "my" || jsIncludes lower "what" || jsIncludes lower "see" ||
   jsIncludes lower "have" || jsIncludes lower "get")

/-- Trigger of the view_billing branch. -/
def viewBillingTrigger (lower : String) : Bool :=
  jsIncludes lower "billing" || jsIncludes lower "payment" ||
  jsIncludes lower "transaction" || jsIncludes lower "invoice" ||
  (jsIncludes lower "history" && !jsIncludes lower "subscription")

/-- Trigger of the get_recommendations branch. -/
def recommendTrigger (lower : String) : Bool :=
  jsIncludes lower "recommend" || jsIncludes lower "suggest" ||
  jsIncludes lower "better plan" || jsIncludes lower "upgrade" ||
  jsIncludes lower "downgrade"

/-- Trigger of the create_subscription branch. -/
def createTrigger (lower : String) : Bool :=
  (jsIncludes lower "subscribe" || jsIncludes lower "sign up" ||
   jsIncludes lower "buy" || jsIncludes lower "purchase" || jsIncludes lower "get") &&
  (jsIncludes lower "plan" || jsIncludes lower "basic" ||
   jsIncludes lower "pro" || jsIncludes lower "enterprise")

/-- Trigger of the cancel_subscription branch. -/
def cancelTrigger (lower : String) : Bool :=
  jsIncludes lower "cancel" || jsIncludes lower "unsubscribe" ||
  jsIncludes lower "stop" || jsIncludes lower "end"

/-- The closed plan-name vocabulary scan of the create_subscription branch. -/
def extractPlanId (lower : String) : Option String :=
  if jsIncludes lower "basic" then some "basic"
  else if jsIncludes lower "pro" && !jsIncludes lower "enterprise" then some "pro"
  else if jsIncludes lower "enterprise" then some "enterprise"
  else none

/-- The keyword if/else chain of POST /api/chat over the lowercased message. -/
def classifyLower (lower : String) : Intent :=
  if viewSubsTrigger lower then
    { action := "view_subscriptions", confidence := 9/10 }
  else if viewBillingTrigger lower then
    { action := "view_billing", confidence := 9/10 }
  else if recommendTrigger lower then
    { action := "get_recommendations", confidence := 9/10 }
  else if createTrigger lower then
    { action := "create_subscription", planId := extractPlanId lower, confidence := 8/10 }
  else if cancelTrigger lower then
    { action := "cancel_subscription", confidence := 8/10 }
  else
    { action := "general_query", confidence := 1/2 }

/-- The fallback classifier: lowercase the message, then run the chain. -/
def detectIntent (message : String) : Intent := classifyLower (jsToLower message)

/-- The default intent (the branch the route may escalate to the backend). -/
def generalQueryIntent : Intent := { action := "general_query", confidence := 1/2 }

/-- The same five branches as an ordered table of (trigger, intent builder)
pairs, in the claimed precedence order. -/
def intentRules : List ((String → Bool) × (String → Intent)) :=
  [(viewSubsTrigger, fun _ => { action := "view_subscriptions", confidence := 9/10 }),
   (viewBillingTrigger, fun _ => { action := "view_billing", confidence := 9/10 }),
   (recommendTrigger, fun _ => { action := "get_recommendations", confidence := 9/10 }),
   (createTrigger, fun lower =>
     { action := "create_subscription", planId := extractPlanId lower, confidence := 8/10 }),
   (cancelTrigger, fun _ => { action := "cancel_subscription", confidence := 8/10 })]

/-- First-match semantics over an ordered rule table: the earliest matching
trigger wins, with no scoring; the default is returned when none fires. -/
def firstMatch (rules : List ((String → Bool) × (String → Intent)))
    (lower : String) (dflt : Intent) : Intent :=
  match rules.find? (fun rule => rule.1 lower) with
  | some rule => rule.2 lower
  | none => dflt

/-- `LLMService.extractIntent`, first variant (src/unnamed/part_002): a reply
that parses is returned as-is (no schema validation); a parse failure
degrades to general_query at confidence 0.5. -/
def extractIntentV1 (parsed : Option Intent) : Intent :=
  match parsed with
  | some intent => intent
  | none => { action := "general_query", confidence := 1/2 }

/-- The trigger-word test of the second variant's keyword fallback. -/
def keywordFallbackV2Triggered (userMessage : String) : Bool :=
  jsIncludes (jsToLower userMessage) "subscription" ||
  jsIncludes (jsToLower userMessage) "show" ||
  jsIncludes (jsToLower userMessage) "view" ||
  jsIncludes (jsToLower userMessage) "list" ||
  jsIncludes (jsToLower userMessage) "my"

/-- The keyword fallback inside the second variant's catch branch. -/
def keywordFallbackV2 (userMessage : String) : Intent :=
  if keywordFallbackV2Triggered userMessage then
    { action := "view_subscriptions", confidence := 7/10 }
  else
    { action := "general_query", confidence := 1/2 }

/-- `LLMService.extractIntent`, second variant (src/unnamed/part_003): direct
`JSON.parse`, then a parse of the first brace-delimited substring of the
reply, then the keyword fallback over the user's message. -/
def extractIntentV2 (parsed : Option Intent) (extracted : Option Intent)
    (userMessage : String) : Intent :=
  match parsed with
  | some intent => intent
  | none =>
    match extracted with
    | some intent => intent
    | none => keywordFallbackV2 userMessage

lemma setClient_maxRequests (rl : RateLimiter) (ip : String) (d : ClientData) :
    (setClient rl ip d).maxRequests = rl.maxRequests := rfl

lemma recordRequest_maxRequests (rl : RateLimiter) (ip : String) (now : Nat) :
    (recordRequest rl ip now).maxRequests = rl.maxRequests := by
  unfold recordRequest
  cases rl.clients ip with
  | none => rfl
  | some d => by_cases h : d.resetTime ≤ now <;> simp [h, setClient_maxRequests]

lemma gateStep_maxRequests (rl : RateLimiter) (e : GateEvent) :
    (gateStep rl e).maxRequests = rl.maxRequests := by
  cases e with
  | request ip now =>
    show (middlewareStep rl ip now).1.maxRequests = rl.maxRequests
    unfold middlewareStep
    by_cases h : isAllowed rl ip now = true
    · rw [if_pos h]; exact recordRequest_maxRequests rl ip now
    · rw [if_neg h]
  | sweep now => rfl

lemma setClient_lookup (rl : RateLimiter) (ip : String) (d : ClientData)
    (ip' : String) (d' : ClientData) (h : (setClient rl ip d).clients ip' = some d') :
    (ip' = ip ∧ d = d') ∨ (ip' ≠ ip ∧ rl.clients ip' = some d') := by
  by_cases hip : ip' = ip
  · left
    refine ⟨hip, ?_⟩
    simpa [setClient, hip] using h
  · right
    refine ⟨hip, ?_⟩
    simpa [setClient, hip] using h

lemma gateStep_countBounded (rl : RateLimiter) (e : GateEvent)
    (hmax : 1 ≤ rl.maxRequests) (hinv : countBounded rl) :
    countBounded (gateStep rl e) := by
  cases e with
  | request ip now =>
    show countBounded (middlewareStep rl ip now).1
    unfold middlewareStep
    by_cases hallow : isAllowed rl ip now = true
    · rw [if_pos hallow]
      intro ip' d' hd'
      rw [recordRequest_maxRequests]
      cases hrec : rl.clients ip with
      | none =>
        simp only [recordRequest, hrec] at hd'
        rcases setClient_lookup _ _ _ _ _ hd' with ⟨_, hd⟩ | ⟨_, hold⟩
        · rw [← hd]; exact hmax
        · exact hinv ip' d' hold
      | some d =>
        by_cases hexp : d.resetTime ≤ now
        · simp only [recordRequest, hrec, if_pos hexp] at hd'
          rcases setClient_lookup _ _ _ _ _ hd' with ⟨_, hd⟩ | ⟨_, hold⟩
          · rw [← hd]; exact hmax
          · exact hinv ip' d' hold
        · simp only [recordRequest, hrec, if_neg hexp] at hd'
          rcases setClient_lookup _ _ _ _ _ hd' with ⟨_, hd⟩ | ⟨_, hold⟩
          · have hlt : d.count < rl.maxRequests := by
              simpa [isAllowed, hrec, hexp] using hallow
            rw [← hd]
            exact hlt
          · exact hinv ip' d' hold
    · rw [if_neg hallow]
      exact hinv
  | sweep now =>
    intro ip' d' hd'
    rw [gateStep_maxRequests]
    simp only [gateStep, cleanupSweep] at hd'
    cases hrec : rl.clients ip' with
    | none =>
      simp only [hrec] at hd'
      cases hd'
    | some d =>
      simp only [hrec] at hd'
      by_cases hexp : d.resetTime ≤ now
      · rw [if_pos hexp] at hd'
        exact absurd hd' (by simp)
      · rw [if_neg hexp] at hd'
        cases hd'
        exact hinv ip' d' hrec

lemma processGateEvents_maxRequests (rl : RateLimiter) (events : List GateEvent) :
    (processGateEvents rl events).maxRequests = rl.maxRequests := by
  induction events generalizing rl with
  | nil => rfl
  | cons e es ih =>
    simpa [processGateEvents, List.foldl_cons, gateStep_maxRequests]
      using (ih (gateStep rl e)).trans (gateStep_maxRequests rl e)

lemma processGateEvents_countBounded (rl : RateLimiter) (events : List GateEvent)
    (hmax : 1 ≤ rl.maxRequests) (hinv : countBounded rl) :
    countBounded (processGateEvents rl events) := by
  induction events generalizing rl with
  | nil => exact hinv
  | cons e es ih =>
    have hmax' : 1 ≤ (gateStep rl e).maxRequests := by
      rw [gateStep_maxRequests]; exact hmax
    exact ih (gateStep rl e) hmax' (gateStep_countBounded rl e hmax hinv)

/-- C1 (amended): provided the configured maximum is at least 1, in every gate
state reached from a fresh limiter by any sequence of middleware-processed
requests and cleanup sweeps, every stored counter is bounded by the configured
maximum; and whenever an identity's live window (`now < resetTime`) has already
recorded the maximum, the next request of that identity is rejected by the
middleware and the state is left unchanged (nothing is recorded). -/
theorem rateLimiter_count_invariant (maxR win : Nat) (hmax : 1 ≤ maxR)
    (events : List GateEvent) (ip : String) (now : Nat) :
    (∀ ip' d, (processGateEvents (mkRateLimiter maxR win) events).clients ip' = some d →
        d.count ≤ maxR) ∧
    (∀ d, (processGateEvents (mkRateLimiter maxR win) events).clients ip = some d →
        now < d.resetTime → maxR ≤ d.count →
        middlewareStep (processGateEvents (mkRateLimiter maxR win) events) ip now
          = (processGateEvents (mkRateLimiter maxR win) events, false)) := by
  have hM : (processGateEvents (mkRateLimiter maxR win) events).maxRequests = maxR :=
    processGateEvents_maxRequests _ _
  constructor
  · have h0 : countBounded (mkRateLimiter maxR win) := by
      intro ip' d hd
      simp [mkRateLimiter] at hd
    have h1 := processGateEvents_countBounded (mkRateLimiter maxR win) events hmax h0
    intro ip' d hd
    have h2 := h1 ip' d hd
    rwa [hM] at h2
  · intro d hd hwin hfull
    have h1 : ¬ d.resetTime ≤ now := Nat.not_le.mpr hwin
    have h2 : ¬ d.count < maxR := Nat.not_lt.mpr hfull
    have hna : isAllowed (processGateEvents (mkRateLimiter maxR win) events) ip now = false := by
      simp [isAllowed, hd, h1, hM, h2]
    unfold middlewareStep
    rw [hna]
    simp

/-- Witness for the amended C1 theorem at max = 10, window = 60000 ms: after
twelve same-window requests the stored count is exactly 10, the bound holds,
and the next same-window request is denied without recording. -/
theorem rateLimiter_count_invariant_witness :
    (1 ≤ 10) ∧
    (∀ ip' d, (processGateEvents (mkRateLimiter 10 60000) gateDemoEvents).clients ip' = some d →
        d.count ≤ 10) ∧
    (processGateEvents (mkRateLimiter 10 60000) gateDemoEvents).clients "198.51.100.7"
      = some ⟨10, 60000⟩ :=
  ⟨by decide,
   (rateLimiter_count_invariant 10 60000 (by decide) gateDemoEvents "198.51.100.7" 20).1,
   by decide⟩

/-- C1 counterexample: with a configured maximum of 0 — which the constructor
accepts — the first request of a fresh window is still admitted and recorded,
so at any instant before 60000 ms the stored count 1 exceeds the configured
maximum 0 while the window is active, and the bounded-count invariant fails;
likewise the (N+1)-th request (here the first) was not denied. -/
theorem rateLimiter_zero_max_counterexample :
    (middlewareStep gateZeroMax "203.0.113.5" 0).2 = true ∧
    (middlewareStep gateZeroMax "203.0.113.5" 0).1.clients "203.0.113.5"
      = some ⟨1, 60000⟩ ∧
    gateZeroMax.maxRequests = 0 ∧
    ¬ countBounded (middlewareStep gateZeroMax "203.0.113.5" 0).1 := by
  refine ⟨by decide, by decide, rfl, ?_⟩
  intro h
  have h1 := h "203.0.113.5" ⟨1, 60000⟩ (by decide)
  exact absurd h1 (by decide)

/-- C2: for every plan id absent from the plan catalog, `createSubscription`
fails with the plan-validation error and leaves the subscriptions store
unchanged — no record is created. -/
theorem createSubscription_unknown_plan (plans : List Plan) (store : List Subscription)
    (customerId planId : String) (startDate : Nat) (newId : String)
    (h : ∀ p ∈ plans, p.id ≠ planId) :
    createSubscription plans store customerId planId startDate newId
      = (.error (.validation ("Plan with ID " ++ planId ++ " does not exist")), store) := by
  have hany : plans.any (fun p => p.id == planId) = false := by
    rw [List.any_eq_false]
    intro p hp
    simpa using h p hp
  simp [createSubscription, validatePlan, hany]

/-- Witness for C2: creating a subscription for the unknown plan id `gold`
against the demo catalog fails with the validation error and the store keeps
exactly its prior single row. -/
theorem createSubscription_unknown_plan_witness :
    (∀ p ∈ demoPlans, p.id ≠ "gold") ∧
    createSubscription demoPlans [demoActiveSub] "customer-2" "gold" 0 "sub-new"
      = (.error (.validation ("Plan with ID " ++ "gold" ++ " does not exist")), [demoActiveSub]) :=
  ⟨by decide,
   createSubscription_unknown_plan demoPlans [demoActiveSub] "customer-2" "gold" 0 "sub-new"
     (by decide)⟩

/-- C10: `cancelSubscription` succeeds on every existing subscription
regardless of its current status — including one already cancelled — returning
it with status `cancelled`, `end_date` overwritten to the call time and every
other column unchanged, and updating the store accordingly; it fails with
not-found exactly when no stored subscription has the given id. -/
theorem cancelSubscription_total_on_existing (store : List Subscription)
    (subscriptionId : String) (now : Nat) :
    (∀ sub, store.find? (fun s => s.id == subscriptionId) = some sub →
      ∃ r, (cancelSubscription store subscriptionId now).1 = .ok r ∧
        r.status = "cancelled" ∧ r.end_date = some now ∧ r.id = sub.id ∧
        r.customer_id = sub.customer_id ∧ r.plan_id = sub.plan_id ∧
        r.start_date = sub.start_date ∧ r.next_billing_date = sub.next_billing_date ∧
        (cancelSubscription store subscriptionId now).2
          = store.map (fun s => if s.id == subscriptionId then r else s)) ∧
    (store.find? (fun s => s.id == subscriptionId) = none →
      cancelSubscription store subscriptionId now
        = (.error (.notFound ("Subscription with ID " ++ subscriptionId ++ " not found")), store)) := by
  constructor
  · intro sub hfind
    refine ⟨{ sub with status := "cancelled", end_date := some now },
      ?_, rfl, rfl, rfl, rfl, rfl, rfl, rfl, ?_⟩
    · simp [cancelSubscription, hfind]
    · simp [cancelSubscription, hfind]
  · intro hfind
    simp [cancelSubscription, hfind]

/-- Witness for C10 at a store holding one already-cancelled subscription:
re-cancelling succeeds and overwrites the end date with the call time. -/
theorem cancelSubscription_total_on_existing_witness :
    ([demoCancelledSub].find? (fun s => s.id == "sub-1") = some demoCancelledSub) ∧
    (∃ r, (cancelSubscription [demoCancelledSub] "sub-1" 500).1 = .ok r ∧
      r.status = "cancelled" ∧ r.end_date = some 500 ∧ r.id = demoCancelledSub.id ∧
      r.customer_id = demoCancelledSub.customer_id ∧ r.plan_id = demoCancelledSub.plan_id ∧
      r.start_date = demoCancelledSub.start_date ∧
      r.next_billing_date = demoCancelledSub.next_billing_date ∧
      (cancelSubscription [demoCancelledSub] "sub-1" 500).2
        = [demoCancelledSub].map (fun s => if s.id == "sub-1" then r else s)) :=
  ⟨by decide,
   (cancelSubscription_total_on_existing [demoCancelledSub] "sub-1" 500).1
     demoCancelledSub (by decide)⟩

/-- C9 counterexample: starting from a store satisfying the invariant
(status = cancelled implies end date set), the accepted update payload
`{ status: 'cancelled' }` produces a subscription that is cancelled with no
end date, so `updateSubscription` does not preserve the invariant. -/
theorem updateSubscription_cancel_without_end_counterexample :
    cancelledHasEnd [demoActiveSub] = true ∧
    (updateSubscription demoPlans [demoActiveSub] "sub-9" cancelOnlyUpdate).1
      = .ok { demoActiveSub with status := "cancelled" } ∧
    cancelledHasEnd (updateSubscription demoPlans [demoActiveSub] "sub-9" cancelOnlyUpdate).2
      = false := by
  refine ⟨by decide, rfl, by decide⟩

/-- C9 (amended): `createSubscription` and `cancelSubscription` preserve the
invariant "status = cancelled implies end date set" unconditionally;
`updateSubscription` preserves it provided its payload never sets the status
to `cancelled` without also supplying a non-null end date, and never nulls the
end date unless it also moves the status away from `cancelled` (the payload
`{ status: 'cancelled' }` alone violates the invariant). -/
theorem subscription_ops_preserve_cancelled_invariant
    (plans : List Plan) (store : List Subscription)
    (customerId planId : String) (startDate : Nat) (newId : String)
    (subscriptionId : String) (u : SubUpdates) (now : Nat)
    (hinv : cancelledHasEnd store = true) :
    cancelledHasEnd (createSubscription plans store customerId planId startDate newId).2 = true ∧
    cancelledHasEnd (cancelSubscription store subscriptionId now).2 = true ∧
    ((u.status = some (some "cancelled") → ∃ d, u.end_date = some (some d)) →
      (u.end_date = some none → ∃ v, u.status = some (some v) ∧ v ≠ "cancelled") →
      cancelledHasEnd (updateSubscription plans store subscriptionId u).2 = true) := by
  refine ⟨?_, ?_, ?_⟩
  · unfold createSubscription
    cases hv : validatePlan plans planId with
    | error e => exact hinv
    | ok w =>
      simp only [cancelledHasEnd, List.all_append, List.all_cons, List.all_nil, Bool.and_true]
      rw [cancelledHasEnd] at hinv
      simp [hinv]
  · unfold cancelSubscription
    cases hf : store.find? (fun s => s.id == subscriptionId) with
    | none => exact hinv
    | some sub =>
      simp only [cancelledHasEnd, List.all_eq_true]
      intro x hx
      rcases List.mem_map.mp hx with ⟨s, hs, rfl⟩
      by_cases hid : (s.id == subscriptionId) = true
      · simp [hid]
      · simp only [hid, if_false]
        rw [cancelledHasEnd, List.all_eq_true] at hinv
        exact hinv s hs
  · intro h1 h2
    unfold updateSubscription
    split
    · exact hinv
    · rename_i existing hf
      split
      · exact hinv
      · split
        · split
          · exact hinv
          · rename_i newSub hap
            simp only [cancelledHasEnd, List.all_eq_true]
            intro x hx
            rcases List.mem_map.mp hx with ⟨s, hs, rfl⟩
            by_cases hid : (s.id == subscriptionId) = true
            · simp only [hid, if_true]
              unfold applyUpdates at hap
              split at hap
              · exact absurd hap (by simp)
              · split at hap
                · exact absurd hap (by simp)
                · split at hap
                  · exact absurd hap (by simp)
                  · rename_i hg1 hg2 hg3
                    have hnew := (Except.ok.inj hap).symm
                    subst hnew
                    rcases hus : u.status with _ | _ | v
                    · by_cases hex : existing.status = "cancelled"
                      · have hmem := List.mem_of_find?_eq_some hf
                        rw [cancelledHasEnd, List.all_eq_true] at hinv
                        have hpe := hinv existing hmem
                        rw [hex] at hpe
                        simp only [beq_self_eq_true, Bool.not_true, Bool.false_or] at hpe
                        rcases hue : u.end_date with _ | _ | d
                        · simp [updStr, updOptNat, hus, hue, hpe]
                        · rcases h2 hue with ⟨v, hv2, _⟩
                          rw [hus] at hv2
                          exact absurd hv2 (by simp)
                        · simp [updStr, updOptNat, hus, hue]
                      · simp [updStr, hus, beq_iff_eq, hex]
                    · rw [hus] at hg2
                      simp at hg2
                    · by_cases hv : v = "cancelled"
                      · subst hv
                        rcases h1 hus with ⟨d, hd⟩
                        simp [updStr, updOptNat, hus, hd]
                      · simp [updStr, hus, beq_iff_eq, hv]
            · simp only [hid, if_false]
              rw [cancelledHasEnd, List.all_eq_true] at hinv
              exact hinv s hs
        · exact hinv

/-- Witness for the amended C9 theorem on a concrete store: creation and
cancellation keep the invariant, and so does an update that sets the status to
cancelled together with a non-null end date. -/
theorem subscription_ops_preserve_cancelled_invariant_witness :
    cancelledHasEnd [demoActiveSub] = true ∧
    cancelledHasEnd (cancelSubscription [demoActiveSub] "sub-9" 700).2 = true ∧
    cancelledHasEnd (updateSubscription demoPlans [demoActiveSub] "sub-9" fullCancelUpdate).2
      = true :=
  ⟨by decide,
   (subscription_ops_preserve_cancelled_invariant demoPlans [demoActiveSub] "customer-2" "basic"
      0 "sub-new" "sub-9" fullCancelUpdate 700 (by decide)).2.1,
   (subscription_ops_preserve_cancelled_invariant demoPlans [demoActiveSub] "customer-2" "basic"
      0 "sub-new" "sub-9" fullCancelUpdate 700 (by decide)).2.2
     (fun _ => ⟨900, rfl⟩) (fun hc => absurd hc (by decide))⟩

lemma monthlyFold_acc (l : List SubRow) (a : ℚ) :
    l.foldl (fun sum s =>
      if s.billing_cycle = "monthly" then sum + s.price
      else if s.billing_cycle = "yearly" then sum + s.price / 12
      else sum) a
      = a + monthlyCostOfSubs l := by
  induction l generalizing a with
  | nil => simp [monthlyCostOfSubs]
  | cons s t ih =>
    rw [monthlyCostOfSubs, List.foldl_cons, List.foldl_cons, ih, ih]
    by_cases h1 : s.billing_cycle = "monthly"
    · rw [if_pos h1, if_pos h1]
      ring
    · by_cases h2 : s.billing_cycle = "yearly"
      · rw [if_neg h1, if_neg h1, if_pos h2, if_pos h2]
        ring
      · rw [if_neg h1, if_neg h1, if_neg h2, if_neg h2]
        ring

lemma monthlyCostOfSubs_spec (subs : List SubRow)
    (h : ∀ s ∈ subs, s.billing_cycle = "monthly" ∨ s.billing_cycle = "yearly") :
    monthlyCostOfSubs subs = specMonthlyTotal subs := by
  induction subs with
  | nil => rfl
  | cons s t ih =>
    have hs := h s (by simp)
    have ht : ∀ x ∈ t, x.billing_cycle = "monthly" ∨ x.billing_cycle = "yearly" :=
      fun x hx => h x (List.mem_cons_of_mem _ hx)
    rw [monthlyCostOfSubs, List.foldl_cons, monthlyFold_acc, ih ht]
    have hst : specMonthlyTotal (s :: t)
        = monthlyNormalized s.price s.billing_cycle + specMonthlyTotal t := by
      rw [specMonthlyTotal, List.map_cons, List.sum_cons]
      rfl
    rw [hst]
    rcases hs with hm | hy
    · rw [if_pos hm, monthlyNormalized, if_pos hm]
      ring
    · have hnm : ¬ s.billing_cycle = "monthly" := by
        rw [hy]; decide
      rw [if_neg hnm, if_pos hy, monthlyNormalized, if_neg hnm]
      ring

lemma generateRecommendations_nonempty (customerId : String) (c : Customer)
    (subs : List SubRow) (billing : List BillRow) (allPlans : List Plan)
    (llmRecs : List ModelRec) (hne : subs ≠ []) :
    generateRecommendations customerId (some c) subs billing allPlans llmRecs
      = .ok ((llmRecs.map (fun m =>
          formatRecommendation (applyComputedSavings subs billing allPlans m)))
          ++ (if 2 ≤ subs.length then (analyzeConsolidation subs allPlans).toList else []),
          true) := by
  cases subs with
  | nil => exact absurd rfl hne
  | cons s rest =>
    unfold generateRecommendations
    simp only [List.isEmpty_cons, Bool.false_eq_true, if_false]
    by_cases hlen : 2 ≤ (s :: rest).length
    · rw [if_pos hlen, if_pos hlen]
      cases hcons : analyzeConsolidation (s :: rest) allPlans with
      | some cRec => simp [hcons]
      | none => simp [hcons]
    · rw [if_neg hlen, if_neg hlen]
      simp

/-- C5: with zero active subscriptions, `generateRecommendations` returns
exactly the one canned starter recommendation, whatever the billing history,
catalog and model oracle are, and the model backend is not called. -/
theorem generateRecommendations_zero_subs_starter (customerId : String) (c : Customer)
    (billingHistory : List BillRow) (allPlans : List Plan) (llmRecs : List ModelRec) :
    generateRecommendations customerId (some c) [] billingHistory allPlans llmRecs
      = .ok ([starterRec], false) ∧ [starterRec].length = 1 := ⟨rfl, rfl⟩

/-- C3 counterexample: the catalog holds no plan matching the model's
candidate (`ghost`), so the model-supplied potentialSavings of 123.45 is
returned unchanged — not discarded and recomputed. -/
theorem modelSavings_kept_counterexample :
    demoPlans.find? (fun p => planMatchesRec p ghostRec) = none ∧
    generateRecommendations "customer-1" (some ⟨"customer-1"⟩) [oneSubRow] [] demoPlans [ghostRec]
      = .ok ([formatRecommendation ghostRec], true) ∧
    (formatRecommendation ghostRec).potentialSavings = 12345/100 ∧
    ghostRec.potentialSavings = some (12345/100) := ⟨rfl, rfl, rfl, rfl⟩

/-- C3 (amended): whenever the model's candidate names a plan that IS found
in the catalog (matched by id or name) and the billing cycles are monthly or
yearly, the model-supplied potentialSavings is discarded and replaced with
the independently computed value: the monthly-normalized sum over active
subscriptions minus the monthly-normalized price of the recommended plan,
rounded to two decimals.  When no catalog plan matches, the model value is
kept (see the counterexample). -/
theorem modelSavings_recomputed_when_plan_found
    (customerId : String) (c : Customer) (subs : List SubRow)
    (billing : List BillRow) (allPlans : List Plan) (m : ModelRec) (plan : Plan)
    (hne : subs ≠ [])
    (hfind : allPlans.find? (fun p => planMatchesRec p m) = some plan)
    (hsc : ∀ s ∈ subs, s.billing_cycle = "monthly" ∨ s.billing_cycle = "yearly")
    (hpc : plan.billing_cycle = "monthly" ∨ plan.billing_cycle = "yearly") :
    ∃ recs called,
      generateRecommendations customerId (some c) subs billing allPlans [m]
        = .ok (recs, called) ∧
      recs.head?.map (fun r => r.potentialSavings)
        = some (jsRound2 (specMonthlyTotal subs
            - monthlyNormalized plan.price plan.billing_cycle)) := by
  have hmc : planMonthlyCost plan = monthlyNormalized plan.price plan.billing_cycle := by
    rcases hpc with hm | hy
    · rw [planMonthlyCost, monthlyNormalized, hm,
        if_neg (by decide : ¬ ("monthly" : String) = "yearly"), if_pos rfl]
    · rw [planMonthlyCost, monthlyNormalized, hy, if_pos rfl,
        if_neg (by decide : ¬ ("yearly" : String) = "monthly")]
  have happ : applyComputedSavings subs billing allPlans m
      = { m with potentialSavings := some (calculateSavings subs plan billing) } := by
    unfold applyComputedSavings
    simp only [hfind]
  have hval : (formatRecommendation (applyComputedSavings subs billing allPlans m)).potentialSavings
      = jsRound2 (specMonthlyTotal subs - monthlyNormalized plan.price plan.billing_cycle) := by
    rw [happ]
    show calculateSavings subs plan billing = _
    rw [calculateSavings, monthlyCostOfSubs_spec subs hsc, hmc]
  refine ⟨_, _, generateRecommendations_nonempty customerId c subs billing allPlans [m] hne, ?_⟩
  rw [List.map_cons, List.map_nil, List.singleton_append, List.head?_cons,
    Option.map_some']
  exact congrArg some hval

/-- Witness for the amended C3 theorem: the model recommends the `pro` plan
(found in the demo catalog) with a fabricated savings of 42; the returned
figure is instead 39.98 − 29.99 = 9.99. -/
theorem modelSavings_recomputed_when_plan_found_witness :
    subsTwo ≠ [] ∧
    demoPlans.find? (fun p => planMatchesRec p proRec)
      = some { id := "pro", name := "Pro Plan", price := 2999/100, billing_cycle := "monthly" } ∧
    (∃ recs called,
      generateRecommendations "customer-1" (some ⟨"customer-1"⟩) subsTwo [] demoPlans [proRec]
        = .ok (recs, called) ∧
      recs.head?.map (fun r => r.potentialSavings)
        = some (jsRound2 (specMonthlyTotal subsTwo
            - monthlyNormalized (2999/100) "monthly"))) ∧
    jsRound2 (specMonthlyTotal subsTwo - monthlyNormalized (2999/100) "monthly") = 999/100 := by
  refine ⟨by simp [subsTwo], rfl, ?_, ?_⟩
  · exact modelSavings_recomputed_when_plan_found "customer-1" ⟨"customer-1"⟩ subsTwo []
      demoPlans proRec
      { id := "pro", name := "Pro Plan", price := 2999/100, billing_cycle := "monthly" }
      (by simp [subsTwo]) rfl (by decide) (Or.inl rfl)
  · norm_num [specMonthlyTotal, subsTwo, monthlyNormalized, jsRound2, jsRound]

lemma analyzeConsolidation_of_none (subs : List SubRow) (allPlans : List Plan)
    (hh : (allPlans.filter isPremiumNamed).head? = none) :
    analyzeConsolidation subs allPlans = none := by
  unfold analyzeConsolidation
  simp only [hh]

lemma analyzeConsolidation_not_worth (subs : List SubRow) (allPlans : List Plan)
    (best : Plan) (hh : (allPlans.filter isPremiumNamed).head? = some best)
    (hs : ¬ 0 < rawCostOfSubs subs - best.price) :
    analyzeConsolidation subs allPlans = none := by
  unfold analyzeConsolidation
  simp only [hh]
  rw [if_neg hs]

/-- C4 counterexample: with two subscriptions totalling $39.98 against a
catalog whose premium-named plans are, in order, Premium Max ($100) and
Premium Lite ($5), a top-tier plan strictly cheaper than the total exists,
yet no consolidation recommendation is produced: the code only ever examines
the first premium-named plan. -/
theorem consolidation_ignores_cheaper_premium_counterexample :
    2 ≤ subsTwo.length ∧
    premiumLite ∈ premiumPlansTwo ∧
    isPremiumNamed premiumLite = true ∧
    premiumLite.price < rawCostOfSubs subsTwo ∧
    analyzeConsolidation subsTwo premiumPlansTwo = none := by
  refine ⟨by decide, by simp [premiumPlansTwo], by decide, ?_, ?_⟩
  · show (5 : ℚ) < rawCostOfSubs subsTwo
    norm_num [rawCostOfSubs, subsTwo, List.foldl_cons, List.foldl_nil]
  · exact analyzeConsolidation_not_worth subsTwo premiumPlansTwo premiumMax rfl
      (by norm_num [rawCostOfSubs, subsTwo, premiumMax, List.foldl_cons, List.foldl_nil])

/-- C4 (amended): for a customer with at least two active subscriptions, a
consolidation entry is appended iff the FIRST premium/enterprise-named plan
of the catalog (not an arbitrary one) has raw price strictly below the raw
sum of the current subscriptions' prices; when appended, its potentialSavings
is that difference rounded to two decimals and it names that first plan.  The
claim's two concrete $9.99 + $29.99 scenarios hold (see the witness); its
"a top-tier plan exists" quantification does not (see the counterexample). -/
theorem consolidation_appends_iff_first_premium_cheaper
    (subs : List SubRow) (allPlans : List Plan) (h2 : 2 ≤ subs.length) :
    ((analyzeConsolidation subs allPlans).isSome = true ↔
      (∃ best, (allPlans.filter isPremiumNamed).head? = some best ∧
        best.price < rawCostOfSubs subs)) ∧
    (∀ r, analyzeConsolidation subs allPlans = some r →
      ∃ best, (allPlans.filter isPremiumNamed).head? = some best ∧
        r.potentialSavings = jsRound2 (rawCostOfSubs subs - best.price) ∧
        r.planId = some best.id ∧ r.planName = some best.name) ∧
    (∀ customerId c billing llmRecs,
      generateRecommendations customerId (some c) subs billing allPlans llmRecs
        = .ok ((llmRecs.map (fun m =>
            formatRecommendation (applyComputedSavings subs billing allPlans m)))
            ++ (analyzeConsolidation subs allPlans).toList, true)) := by
  have hne : subs ≠ [] := by
    cases subs with
    | nil => simp at h2
    | cons a l => simp
  refine ⟨?_, ?_, ?_⟩
  · constructor
    · intro hsome
      cases hr : analyzeConsolidation subs allPlans with
      | none => rw [hr] at hsome; exact absurd hsome (by simp)
      | some r =>
        unfold analyzeConsolidation at hr
        split at hr
        · rename_i best hh
          split at hr
          · rename_i hs
            exact ⟨best, hh, by linarith⟩
          · cases hr
        · cases hr
    · rintro ⟨best, hb, hlt⟩
      unfold analyzeConsolidation
      simp only [hb]
      rw [if_pos (by linarith : 0 < rawCostOfSubs subs - best.price)]
      rfl
  · intro r hr
    unfold analyzeConsolidation at hr
    split at hr
    · rename_i best hh
      split at hr
      · cases Option.some.inj hr
        exact ⟨best, hh, rfl, rfl, rfl⟩
      · cases hr
    · cases hr
  · intro customerId c billing llmRecs
    rw [generateRecommendations_nonempty customerId c subs billing allPlans llmRecs hne,
      if_pos h2]

/-- Witness for the amended C4 theorem at the claim's own scenarios: two
monthly subscriptions at $9.99 and $29.99 yield a consolidation entry against
a $29.99 enterprise plan, with potentialSavings 9.99, and none against a
$99.99 enterprise plan. -/
theorem consolidation_appends_iff_first_premium_cheaper_witness :
    2 ≤ subsTwo.length ∧
    (analyzeConsolidation subsTwo [enterprise2999]).isSome = true ∧
    (∀ r, analyzeConsolidation subsTwo [enterprise2999] = some r →
      r.potentialSavings = 999/100) ∧
    analyzeConsolidation subsTwo [enterprise9999] = none := by
  refine ⟨by decide, ?_, ?_, ?_⟩
  · exact (consolidation_appends_iff_first_premium_cheaper subsTwo [enterprise2999]
      (by decide)).1.mpr
      ⟨enterprise2999, rfl,
        by norm_num [rawCostOfSubs, subsTwo, enterprise2999, List.foldl_cons, List.foldl_nil]⟩
  · intro r hr
    rcases (consolidation_appends_iff_first_premium_cheaper subsTwo [enterprise2999]
      (by decide)).2.1 r hr with ⟨best, hb, hps, -, -⟩
    have h0 : ([enterprise2999].filter isPremiumNamed).head? = some enterprise2999 := rfl
    rw [h0] at hb
    cases Option.some.inj hb
    rw [hps]
    norm_num [rawCostOfSubs, subsTwo, enterprise2999, jsRound2, jsRound,
      List.foldl_cons, List.foldl_nil]
  · exact analyzeConsolidation_not_worth subsTwo [enterprise9999] enterprise9999 rfl
      (by norm_num [rawCostOfSubs, subsTwo, enterprise9999, List.foldl_cons, List.foldl_nil])

lemma formatRecommendation_costImplication (m : ModelRec) :
    (formatRecommendation m).costImplication
      = some (if 0 < (formatRecommendation m).potentialSavings
          then CostPhrase.save ((formatRecommendation m).potentialSavings)
          else if (formatRecommendation m).potentialSavings < 0
          then CostPhrase.additional (-((formatRecommendation m).potentialSavings))
          else CostPhrase.similar) := by
  have h1 : (formatRecommendation m).costImplication
      = some (costPhraseOf m.potentialSavings) := rfl
  have h2 : (formatRecommendation m).potentialSavings = jsOrZero m.potentialSavings := rfl
  rw [h1, h2]
  cases hm : m.potentialSavings with
  | none => simp [costPhraseOf, jsOrZero]
  | some v => simp [costPhraseOf, jsOrZero]

lemma analyzeConsolidation_costImplication (subs : List SubRow) (allPlans : List Plan)
    (r : OutRec) (h : analyzeConsolidation subs allPlans = some r) :
    r.costImplication = none := by
  unfold analyzeConsolidation at h
  split at h
  · split at h
    · cases Option.some.inj h
      rfl
    · cases h
  · cases h

/-- C8 counterexample: the zero-subscription starter recommendation is
returned without any costImplication at all, although its potentialSavings is
0 and the claim requires a "similar cost" string on every element. -/
theorem starter_missing_costImplication_counterexample :
    generateRecommendations "customer-3" (some ⟨"customer-3"⟩) [] [] [] []
      = .ok ([starterRec], false) ∧
    starterRec.costImplication = none ∧
    starterRec.potentialSavings = 0 := ⟨rfl, rfl, rfl⟩

/-- C8 (amended): in every array the analyzer returns, the model-candidate
entries — the first `llmRecs.length` elements, which pass through
`formatRecommendation` — carry a costImplication determined exactly by the
sign of their potentialSavings (save / additional cost / similar), while
every remaining element (the consolidation entry) carries none; the starter
entry of the zero-subscription branch also carries none (see the
counterexample). -/
theorem costImplication_sign_analysis (customerId : String) (c : Customer)
    (subs : List SubRow) (billing : List BillRow) (allPlans : List Plan)
    (llmRecs : List ModelRec) (recs : List OutRec)
    (h : generateRecommendations customerId (some c) subs billing allPlans llmRecs
          = .ok (recs, true)) :
    (∀ r ∈ recs.take llmRecs.length,
      r.costImplication
        = some (if 0 < r.potentialSavings then CostPhrase.save r.potentialSavings
            else if r.potentialSavings < 0 then CostPhrase.additional (-r.potentialSavings)
            else CostPhrase.similar)) ∧
    (∀ r ∈ recs.drop llmRecs.length, r.costImplication = none) := by
  cases subs with
  | nil =>
    rw [show generateRecommendations customerId (some c) [] billing allPlans llmRecs
        = .ok ([starterRec], false) from rfl] at h
    simp at h
  | cons s rest =>
    rw [generateRecommendations_nonempty customerId c (s :: rest) billing allPlans llmRecs
      (by simp)] at h
    simp only [Except.ok.injEq, Prod.mk.injEq, and_true] at h
    subst h
    have hlen : llmRecs.length
        = (llmRecs.map (fun m =>
            formatRecommendation (applyComputedSavings (s :: rest) billing allPlans m))).length :=
      (List.length_map _ _).symm
    constructor
    · intro r hr
      rw [hlen, List.take_left] at hr
      rcases List.mem_map.mp hr with ⟨mRec, hm, rfl⟩
      exact formatRecommendation_costImplication _
    · intro r hr
      rw [hlen, List.drop_left] at hr
      by_cases hlen2 : 2 ≤ (s :: rest).length
      · rw [if_pos hlen2] at hr
        exact analyzeConsolidation_costImplication _ _ r
          (Option.mem_def.mp (Option.mem_toList.mp hr))
      · rw [if_neg hlen2] at hr
        exact absurd hr (List.not_mem_nil r)

/-- Witness for the amended C8 theorem: one model candidate over two active
subscriptions with a premium-free catalog; the single returned entry carries
the sign-derived costImplication. -/
theorem costImplication_sign_analysis_witness :
    (generateRecommendations "customer-1" (some ⟨"customer-1"⟩) subsTwo [] demoPlans [proRec]
      = .ok ([formatRecommendation (applyComputedSavings subsTwo [] demoPlans proRec)], true)) ∧
    (∀ r ∈ ([formatRecommendation (applyComputedSavings subsTwo [] demoPlans proRec)]).take
        [proRec].length,
      r.costImplication
        = some (if 0 < r.potentialSavings then CostPhrase.save r.potentialSavings
            else if r.potentialSavings < 0 then CostPhrase.additional (-r.potentialSavings)
            else CostPhrase.similar)) := by
  have h : generateRecommendations "customer-1" (some ⟨"customer-1"⟩) subsTwo [] demoPlans [proRec]
      = .ok ([formatRecommendation (applyComputedSavings subsTwo [] demoPlans proRec)], true) := by
    rw [generateRecommendations_nonempty _ _ _ _ _ _ (by simp [subsTwo]),
      if_pos (by decide : 2 ≤ subsTwo.length),
      analyzeConsolidation_of_none subsTwo demoPlans rfl]
    rfl
  exact ⟨h, (costImplication_sign_analysis _ _ _ _ _ _ _ h).1⟩

/-- C6: the lexical fallback classifier realises exactly the first-match
semantics of the ordered trigger table — precedence view_subscriptions >
view_billing > get_recommendations > create_subscription >
cancel_subscription > general_query, ties resolved purely by this order with
no scoring or longest match — and "show me my subscriptions" resolves to
view_subscriptions with confidence 0.9 ≥ 0.7. -/
theorem detectIntent_fixed_precedence (message : String) :
    detectIntent message = firstMatch intentRules (jsToLower message) generalQueryIntent ∧
    detectIntent "show me my subscriptions"
      = { action := "view_subscriptions", planId := none, subscriptionId := none,
          confidence := 9/10 } ∧
    ((7 : ℚ)/10 ≤ 9/10) := by
  refine ⟨?_, rfl, by norm_num⟩
  show classifyLower (jsToLower message) = _
  generalize jsToLower message = lower
  unfold classifyLower firstMatch intentRules generalQueryIntent
  cases h1 : viewSubsTrigger lower <;>
    cases h2 : viewBillingTrigger lower <;>
      cases h3 : recommendTrigger lower <;>
        cases h4 : createTrigger lower <;>
          cases h5 : cancelTrigger lower <;>
            simp [h1, h2, h3, h4, h5, List.find?]

/-- C7 counterexample: in the second `extractIntent` variant, a model reply
whose payload fails JSON validation does not degrade to general_query when
the user message contains a trigger word: for "show me my subscriptions" the
keyword fallback answers view_subscriptions at confidence 0.7. -/
theorem extractIntent_fallback_counterexample :
    extractIntentV2 none none "show me my subscriptions"
      = { action := "view_subscriptions", planId := none, subscriptionId := none,
          confidence := 7/10 } ∧
    ({ action := "view_subscriptions", planId := none, subscriptionId := none,
       confidence := 7/10 } : Intent)
      ≠ { action := "general_query", planId := none, subscriptionId := none,
          confidence := 1/2 } := by
  refine ⟨rfl, ?_⟩
  intro h
  exact absurd (congrArg Intent.action h) (by decide)

/-- C7 (amended): a reply whose payload fails JSON parsing never raises an
error: the first `extractIntent` variant always degrades to
{action: general_query, parameters: {}, confidence: 0.5}; the second variant
does the same provided no brace-delimited substring of the reply parses and
the lowercased user message contains none of its fallback trigger words
(otherwise it answers view_subscriptions at 0.7 instead).  Payloads that do
parse are returned without schema validation. -/
theorem extractIntent_parse_failure (userMessage : String)
    (h : keywordFallbackV2Triggered userMessage = false) :
    extractIntentV1 none
      = { action := "general_query", planId := none, subscriptionId := none,
          confidence := 1/2 } ∧
    extractIntentV2 none none userMessage
      = { action := "general_query", planId := none, subscriptionId := none,
          confidence := 1/2 } := by
  refine ⟨rfl, ?_⟩
  show keywordFallbackV2 userMessage = _
  unfold keywordFallbackV2
  rw [h]
  rfl

/-- Witness for the amended C7 theorem at the trigger-free message
"tell me a joke". -/
theorem extractIntent_parse_failure_witness :
    keywordFallbackV2Triggered "tell me a joke" = false ∧
    extractIntentV1 none
      = { action := "general_query", planId := none, subscriptionId := none,
          confidence := 1/2 } ∧
    extractIntentV2 none none "tell me a joke"
      = { action := "general_query", planId := none, subscriptionId := none,
          confidence := 1/2 } :=
  ⟨by decide,
   (extractIntent_parse_failure "tell me a joke" (by decide)).1,
   (extractIntent_parse_failure "tell me a joke" (by decide)).2⟩
